import Mathlib

/-!
Verification of the policy-gated resource access layer of the `ainative`
repository (files toolkit in `src/aios/tools/files.py`, terminal toolkit in
`src/aios/tools/terminal.py`), as a shallow embedding in Lean 4.

Modelling conventions:
* A filesystem path is a `String`; canonicalization (`Path(p).resolve()`) is
  modelled lexically (split on `/`, drop empty and `.` segments, `..` pops the
  last segment), i.e. without symlink expansion, and candidate paths are taken
  as absolute.  `PurePath.relative_to` succeeds exactly when the parts of the
  base form a prefix of the parts of the candidate, which is what
  `resolveParts` with `List.isPrefixOf` captures below.
* Real filesystem state is an explicit `FS` value (an association list of file
  contents plus a list of directory paths); `open`/`stat`/`read`/`write` act
  on it.  `subprocess.run` is an oracle `String -> RunOutcome` supplied to
  `execute`; the boolean paired with the result records whether a process was
  spawned.
* Python floats are modelled as exact rationals; all concrete inputs used in
  theorems are exactly representable, so the idealization is faithful there.
* A Python function that can raise an exception through to its caller is
  modelled with an `Option` result (`none` = the exception escapes).
-/

/-- Split a character list into the `/`-separated chunks (empty chunks kept),
mirroring how `PurePosixPath` parses a path string into parts. -/
def segsOf (acc : List Char) : List Char → List String
  | [] => [String.mk acc.reverse]
  | c :: rest =>
    if c = '/' then String.mk acc.reverse :: segsOf [] rest
    else segsOf (c :: acc) rest

/-- Lexical model of `Path(p).resolve()`: the canonical list of path segments.
Empty and `.` segments vanish, `..` removes the previous segment (a no-op at
the root, as in POSIX resolution). Symlinks are not modelled and the path is
interpreted as absolute. -/
def resolveParts (s : String) : List String :=
  (segsOf [] s.data).foldl
    (fun st seg =>
      if seg = "" || seg = "." then st
      else if seg = ".." then st.dropLast
      else st ++ [seg]) []

/-- Render a canonical segment list the way `str(PosixPath(...))` renders the
resolved path: `/` for the root, otherwise `/`-joined segments. -/
def renderPath (parts : List String) : String :=
  if parts.isEmpty then "/" else "/" ++ String.intercalate "/" parts

/-- Rendering of a Python list of `PosixPath` values by `f"{...}"`, used in the
final denial reason of `_is_path_allowed`. -/
def pyPathListRepr (ps : List (List String)) : String :=
  "[" ++ String.intercalate ", "
    (ps.map (fun p => "PosixPath(\x27" ++ renderPath p ++ "\x27)")) ++ "]"

/-- The state of a `FilesToolkit` instance: both path lists are stored already
resolved (the constructor maps `Path(p).resolve()` over them). -/
structure FilesToolkit where
  allowedPaths : List (List String)
  blockedPaths : List (List String)
  maxFileSize : Nat
deriving DecidableEq

/-- `FilesToolkit.__init__`: resolve every configured path up front. -/
def mkFilesToolkit (allowed blocked : List String) (maxSize : Nat) : FilesToolkit :=
  ⟨allowed.map resolveParts, blocked.map resolveParts, maxSize⟩

/-- `FilesToolkit._is_path_allowed`: resolve the candidate, deny on the first
blocked directory containing it, otherwise allow on the first allowed
directory containing it, otherwise deny naming the allowed set.  Containment
is `resolved.relative_to(dir)`, i.e. a segment-list prefix test. -/
def isPathAllowed (tk : FilesToolkit) (path : String) : Bool × String :=
  let resolved := resolveParts path
  match tk.blockedPaths.find? (fun b => b.isPrefixOf resolved) with
  | some b => (false, "Path is in blocked directory: " ++ renderPath b)
  | none =>
    match tk.allowedPaths.find? (fun a => a.isPrefixOf resolved) with
    | some a => (true, "Path is within allowed directory: " ++ renderPath a)
    | none => (false, "Path is not within any allowed directory: "
        ++ pyPathListRepr tk.allowedPaths)

-- Sanity checks of the path model on concrete inputs.
example : resolveParts "/etc/passwd" = ["etc", "passwd"] := by decide
example : resolveParts "/tmp/../etc/./x" = ["etc", "x"] := by decide
example : resolveParts "/" = [] := by decide
example : renderPath ["etc"] = "/etc" := by decide

/-- Explicit filesystem state: regular files as an association list from path
string to text content (lookup takes the most recent binding), plus the set of
directory paths.  Paths are keyed exactly as the operations receive them,
matching the code, which checks `_is_path_allowed` on the argument but then
opens `Path(path)` unresolved. -/
structure FS where
  files : List (String × String)
  dirs : List String
deriving DecidableEq

/-- Content of the regular file at `p`, if one exists. -/
def FS.getFile (fs : FS) (p : String) : Option String :=
  fs.files.lookup p

/-- `open(p, "w")` / the final state of a write: bind `p` to `c`. -/
def FS.setFile (fs : FS) (p c : String) : FS :=
  ⟨(p, c) :: fs.files, fs.dirs⟩

/-- `Path(p).exists()`: a regular file or a directory is present at `p`. -/
def FS.existsP (fs : FS) (p : String) : Bool :=
  (fs.getFile p).isSome || fs.dirs.contains p

/-- `len(content.encode("utf-8"))`, and also the `st_size` of a text file that
stores `content` UTF-8 encoded. -/
def utf8Len (s : String) : Nat :=
  s.data.foldl (fun n c => n + c.utf8Size) 0

/-- Text-mode line iteration: split after each newline character, keeping the
terminator with its line; a trailing chunk without a newline is its own line,
and iterating an empty file yields no lines. -/
def splitKeepNl (acc : List Char) : List Char → List String
  | [] => if acc.isEmpty then [] else [String.mk acc.reverse]
  | c :: rest =>
    if c = '\n' then String.mk (c :: acc).reverse :: splitKeepNl [] rest
    else splitKeepNl (c :: acc) rest

/-- The `max_lines` branch of `read_file`: emit lines until the index reaches
the limit, then append the truncation marker and stop. -/
def limitedRead (content : String) (n : Nat) : String :=
  let lines := splitKeepNl [] content.data
  if lines.length ≤ n then String.join lines
  else String.join (lines.take n) ++ "... (truncated at " ++ toString n ++ " lines)"

/-- `FilesToolkit.read_file`: policy check, existence check, regular-file
check, size check, then either a full read or a line-limited read.  The
Python guard `if max_lines:` is truthiness, so `None` and `0` both take the
full-read branch. -/
def readFile (tk : FilesToolkit) (fs : FS) (path : String)
    (maxLines : Option Nat) : String :=
  let chk := isPathAllowed tk path
  if !chk.1 then "Access denied: " ++ chk.2
  else if !(fs.existsP path) then "File not found: " ++ path
  else match fs.getFile path with
  | none => "Not a file: " ++ path
  | some content =>
    if tk.maxFileSize < utf8Len content then
      "File too large (max " ++ toString tk.maxFileSize ++ " bytes)"
    else match maxLines with
      | some n => if n != 0 then limitedRead content n else content
      | none => content

/-- `FilesToolkit.write_file`: policy check, encoded-size check on the new
content only, then overwrite or append per the flag (append reads the current
content, an absent file counting as empty, exactly as `open(..., "a")`).
Opening an existing directory for writing raises `IsADirectoryError`, which
the `except` clause converts to an error string with the state unchanged. -/
def writeFile (tk : FilesToolkit) (fs : FS) (path content : String)
    (append : Bool) : String × FS :=
  let chk := isPathAllowed tk path
  if !chk.1 then ("Access denied: " ++ chk.2, fs)
  else if tk.maxFileSize < utf8Len content then
    ("Content too large (max " ++ toString tk.maxFileSize ++ " bytes)", fs)
  else if fs.dirs.contains path then
    ("Error writing file: [Errno 21] Is a directory: \x27" ++ path ++ "\x27", fs)
  else
    let newContent := if append then ((fs.getFile path).getD "") ++ content
                      else content
    let action := if append then "appended to" else "written to"
    ("Successfully " ++ action ++ " " ++ path, fs.setFile path newContent)

example :
    readFile (mkFilesToolkit ["/tmp"] [] 100)
      (FS.mk [("/tmp/a", "one\ntwo\nthree")] []) "/tmp/a" (some 2)
      = "one\ntwo\n... (truncated at 2 lines)" := by decide

/-- Case-insensitive comparison baseline: `str.lower()` modelled per
character. -/
def lowerStr (s : String) : String :=
  String.mk (s.data.map Char.toLower)

/-- Occurrence of `pat` as a contiguous substring of `s` (the Python
`pat in s` test), by checking a prefix at every suffix position. -/
def occursAux (p : List Char) : List Char → Bool
  | [] => p.isEmpty
  | c :: rest => p.isPrefixOf (c :: rest) || occursAux p rest

/-- `pat in s` on strings. -/
def occursIn (pat s : String) : Bool :=
  occursAux pat.data s.data

/-- The truncation marker `search_files` appends when the cap is reached. -/
def searchMarker : String := "... (truncated at 100 results)"

/-- The per-file content filter of `search_files`: with no content query every
file is kept; with a query the file is kept when reading it succeeds (`readRes`
returns the content; `none` models a raised and swallowed exception, skipping
the file), its size is within the limit, and the query occurs in the content
case-insensitively. -/
def contentKeep (tk : FilesToolkit) (readRes : String → Option String)
    (want : Option String) (p : String) : Bool :=
  match want with
  | none => true
  | some c =>
    match readRes p with
    | none => false
    | some txt =>
      utf8Len txt ≤ tk.maxFileSize && occursIn (lowerStr c) (lowerStr txt)

/-- The traversal loop of `search_files` over the paths yielded by
`base_path.rglob(pattern)` (supplied as the list `found`, since globbing
walks the real filesystem): skip non-files, skip paths that fail the
containment re-check, append kept matches, and after each appended match stop
with the truncation marker once 100 results are accumulated. -/
def searchLoop (tk : FilesToolkit) (isF : String → Bool)
    (keep : String → Bool) (acc : List String) : List String → List String
  | [] => acc
  | p :: rest =>
    if isF p && (isPathAllowed tk p).1 then
      let acc' := if keep p then acc ++ [p] else acc
      if 100 ≤ acc'.length then acc' ++ [searchMarker]
      else searchLoop tk isF keep acc' rest
    else searchLoop tk isF keep acc rest

/-- `FilesToolkit.search_files`: policy check on the base path, existence
check, then the traversal loop; an empty match list reports no files found,
otherwise the entries are listed under a count header. -/
def searchFiles (tk : FilesToolkit) (fs : FS) (isF : String → Bool)
    (readRes : String → Option String) (found : List String)
    (path pattern : String) (want : Option String) : String :=
  let chk := isPathAllowed tk path
  if !chk.1 then "Access denied: " ++ chk.2
  else if !(fs.existsP path) then "Path not found: " ++ path
  else
    let results := searchLoop tk isF (contentKeep tk readRes want) [] found
    if results.isEmpty then
      "No files found matching \x27" ++ pattern ++ "\x27"
        ++ (match want with
            | some c => " containing \x27" ++ c ++ "\x27"
            | none => "")
    else
      "Found " ++ toString results.length ++ " file(s):\n"
        ++ String.intercalate "\n" (results.map (fun m => "  " ++ m))

/-- A `FileInfo` dataclass value; `size` is a rational because the Python
field starts as an integer byte count but is divided by 1024 in place. -/
structure FileInfo where
  path : String
  name : String
  size : ℚ
  isDir : Bool
  extension : String
  modified : ℚ
deriving DecidableEq

/-- Python `f"{x:.1f}"` for the nonnegative values reachable in `size_human`
(all exactly representable at one decimal in the inputs considered). -/
def fmt1 (q : ℚ) : String :=
  let t : ℤ := ⌊q * 10⌋
  toString (t / 10) ++ "." ++ toString (t % 10)

/-- The loop of `FileInfo.size_human`: walk the unit ladder, dividing the
`size` FIELD by 1024 in place on every step taken; return the rendered string
together with the final value of the field. -/
def sizeHumanGo (sz : ℚ) : List String → String × ℚ
  | [] => (fmt1 sz ++ " TB", sz)
  | u :: us =>
    if sz < 1024 then (fmt1 sz ++ " " ++ u, sz)
    else sizeHumanGo (sz / 1024) us

/-- `FileInfo.size_human`: the property both returns the rendered size and,
because it assigns `self.size /= 1024` inside the loop, leaves the descriptor
with the divided size.  The returned pair is (rendered string, descriptor
after the call). -/
def FileInfo.sizeHuman (fi : FileInfo) : String × FileInfo :=
  let r := sizeHumanGo fi.size ["B", "KB", "MB", "GB"]
  (r.1, ⟨fi.path, fi.name, r.2, fi.isDir, fi.extension, fi.modified⟩)

example : sizeHumanGo 2048 ["B", "KB", "MB", "GB"] = ("2.0 KB", 2) := by
  have h1 : ((2048 : ℚ) < 1024) = False := by norm_num
  have h2 : ((2048 : ℚ) / 1024) = 2 := by norm_num
  have h3 : ((2 : ℚ) < 1024) = True := by norm_num
  have h4 : (⌊(2 : ℚ) * 10⌋ : ℤ) = 20 := by norm_num
  simp only [sizeHumanGo, h1, h2, h3, if_true, if_false, fmt1, h4]
  rfl

/-- A `CommandPolicy` / `TerminalToolkit` configuration: allowed base-command
entries (empty list = no restriction), blocked substring patterns, timeout in
seconds, optional working directory. -/
structure TerminalToolkit where
  allowedCommands : List String
  blockedCommands : List String
  timeout : Nat
  workingDir : Option String
deriving DecidableEq

/-- The default blocked pattern list of `TerminalToolkit.__init__`. -/
def defaultBlockedCommands : List String :=
  ["rm -rf /", "rm -rf /*", "dd if=", "mkfs", "fdisk",
   ":()\x7b:|:&\x7d;:", "> /dev/sd", "chmod -R 777 /"]

/-- The `CommandResult` dataclass. -/
structure CommandResult where
  stdout : String
  stderr : String
  returnCode : Int
  command : String
deriving DecidableEq

/-- Rendering of a Python list of strings by `f"{...}"`, used in the
not-in-allowed-list denial reason. -/
def pyStrListRepr (xs : List String) : String :=
  "[" ++ String.intercalate ", "
    (xs.map (fun x => "\x27" ++ x ++ "\x27")) ++ "]"

/-- `s.endswith(p)` on strings, via reversed character lists. -/
def endsWithStr (p s : String) : Bool :=
  p.data.reverse.isPrefixOf s.data.reverse

/-- State of the `shlex` posix splitter: outside quotes, inside single
quotes, inside double quotes. -/
inductive SMode where
  | out
  | sq
  | dq
deriving DecidableEq

/-- The characters `shlex` treats as token separators. -/
def shlexWs (c : Char) : Bool :=
  c = ' ' || c = '\t' || c = '\r' || c = '\n'

/-- Core state machine of `shlex.split(s)` in posix mode: `curr` is the token
being built (`some ""` after an opening quote, so empty quoted tokens
survive), `acc` the completed tokens.  Outside quotes a backslash escapes the
next character; inside double quotes it escapes only `"` and `\`; inside
single quotes nothing is special.  `none` models the `ValueError` raised on
an unclosed quote or a trailing escape. -/
def shlexCore (mode : SMode) (curr : Option String) (acc : List String) :
    List Char → Option (List String)
  | [] =>
    match mode with
    | SMode.out =>
      some (match curr with
            | some t => acc ++ [t]
            | none => acc)
    | _ => none
  | c :: rest =>
    match mode with
    | SMode.out =>
      if c = '\'' then shlexCore SMode.sq (some (curr.getD "")) acc rest
      else if c = '"' then shlexCore SMode.dq (some (curr.getD "")) acc rest
      else if c = '\\' then
        match rest with
        | [] => none
        | d :: rest' =>
          shlexCore SMode.out (some ((curr.getD "").push d)) acc rest'
      else if shlexWs c then
        match curr with
        | some t => shlexCore SMode.out none (acc ++ [t]) rest
        | none => shlexCore SMode.out none acc rest
      else shlexCore SMode.out (some ((curr.getD "").push c)) acc rest
    | SMode.sq =>
      if c = '\'' then shlexCore SMode.out curr acc rest
      else shlexCore SMode.sq (some ((curr.getD "").push c)) acc rest
    | SMode.dq =>
      if c = '"' then shlexCore SMode.out curr acc rest
      else if c = '\\' then
        match rest with
        | [] => none
        | d :: rest' =>
          if d = '"' || d = '\\' then
            shlexCore SMode.dq (some ((curr.getD "").push d)) acc rest'
          else
            shlexCore SMode.dq (some (((curr.getD "").push c).push d)) acc rest'
      else shlexCore SMode.dq (some ((curr.getD "").push c)) acc rest

/-- `shlex.split(command)`: shell-style word splitting with quoting and
escaping honored; `none` when the tokenizer raises. -/
def shlexSplit (command : String) : Option (List String) :=
  shlexCore SMode.out none [] command.data

example : shlexSplit "ls -la" = some ["ls", "-la"] := by decide
example : shlexSplit "echo \x27a b\x27 c" = some ["echo", "a b", "c"] := by decide
example : shlexSplit "echo \"a \\\" b\"" = some ["echo", "a \" b"] := by decide
example : shlexSplit "" = some [] := by decide
example : shlexSplit "   " = some [] := by decide
example : shlexSplit "a \x27\x27 b" = some ["a", "", "b"] := by decide
example : shlexSplit "echo \x27oops" = none := by decide

/-- `TerminalToolkit._is_command_allowed`: substring blocklist first, then the
allow-all shortcut for an empty allow-list, then shell tokenization (whose
`ValueError` propagates, hence the `Option`), the empty-command denial, and
the base-command test against each allowed entry (exact match, or invocation
by a path ending in `/<entry>`). -/
def isCommandAllowed (tk : TerminalToolkit) (command : String) :
    Option (Bool × String) :=
  match tk.blockedCommands.find? (fun b => occursIn b command) with
  | some b => some (false, "Command contains blocked pattern: " ++ b)
  | none =>
    if tk.allowedCommands.isEmpty then some (true, "No restrictions")
    else
      match shlexSplit command with
      | none => none
      | some [] => some (false, "Empty command")
      | some (base :: _) =>
        match tk.allowedCommands.find?
            (fun a => base == a || endsWithStr ("/" ++ a) base) with
        | some _ => some (true, "Command \x27" ++ base ++ "\x27 is in allowed list")
        | none => some (false, "Command \x27" ++ base
            ++ "\x27 is not in allowed list: " ++ pyStrListRepr tk.allowedCommands)

/-- Outcome of the underlying `subprocess.run` call, supplied as an oracle:
normal completion with captured streams and exit status, expiry of the
timeout, or any other raised failure. -/
inductive RunOutcome where
  | completed (stdout stderr : String) (code : Int)
  | timedOut
  | failed (msg : String)
deriving DecidableEq

/-- `TerminalToolkit.execute`: the policy check first (its possible
`ValueError` escapes, hence the outer `Option`); on denial an immediate
`-1` result with the reason in stderr and no process spawned; otherwise the
spawn happens and completion trims both streams, timeout maps to `-2`, and
any other failure maps to `-3`.  The boolean records whether a process was
spawned. -/
def execute (tk : TerminalToolkit) (run : String → RunOutcome)
    (command : String) : Option (CommandResult × Bool) :=
  match isCommandAllowed tk command with
  | none => none
  | some (false, reason) =>
    some (⟨"", "Command not allowed: " ++ reason, -1, command⟩, false)
  | some (true, _) =>
    match run command with
    | RunOutcome.completed out err code =>
      some (⟨out.trim, err.trim, code, command⟩, true)
    | RunOutcome.timedOut =>
      some (⟨"", "Command timed out after " ++ toString tk.timeout ++ " seconds",
             -2, command⟩, true)
    | RunOutcome.failed msg =>
      some (⟨"", "Error executing command: " ++ msg, -3, command⟩, true)

/-- C1: whenever the resolved candidate lies under some blocked directory, the
check denies, and the reason names a blocked directory containing the
candidate, irrespective of the allowed set (the block loop runs first and
returns immediately). -/
theorem c1_blocked_wins (tk : FilesToolkit) (p : String)
    (h : ∃ b ∈ tk.blockedPaths, b.isPrefixOf (resolveParts p) = true) :
    (isPathAllowed tk p).1 = false ∧
      ∃ b ∈ tk.blockedPaths, b.isPrefixOf (resolveParts p) = true ∧
        (isPathAllowed tk p).2 = "Path is in blocked directory: " ++ renderPath b := by
  obtain ⟨b, hb, hpre⟩ := h
  rcases hf : tk.blockedPaths.find? (fun b => b.isPrefixOf (resolveParts p)) with _ | b₀
  · exact absurd hpre (by simpa using List.find?_eq_none.mp hf b hb)
  · refine ⟨?_, b₀, List.mem_of_find?_eq_some hf, by simpa using List.find?_some hf, ?_⟩
    · simp [isPathAllowed, hf]
    · simp [isPathAllowed, hf]

/-- C1 witness: with `/etc` both blocked and allowed, `/etc/passwd` is denied
with the blocked-directory reason. -/
theorem c1_blocked_wins_witness :
    (isPathAllowed (mkFilesToolkit ["/etc"] ["/etc"] 100) "/etc/passwd").1 = false :=
  (c1_blocked_wins (mkFilesToolkit ["/etc"] ["/etc"] 100) "/etc/passwd"
    ⟨["etc"], by decide, by decide⟩).1

/-- C2: containment is segment-exact, not textual.  With `/etc` blocked and
`/etc2` allowed, the segment test does not place `/etc2/x` under `/etc` (so
the path is allowed via `/etc2`), while `/etc/x` is under `/etc` and denied. -/
theorem c2_segment_exact :
    (["etc"].isPrefixOf (resolveParts "/etc2/x")) = false ∧
    (["etc"].isPrefixOf (resolveParts "/etc/x")) = true ∧
    isPathAllowed (mkFilesToolkit ["/etc2"] ["/etc"] 100) "/etc2/x"
      = (true, "Path is within allowed directory: /etc2") ∧
    isPathAllowed (mkFilesToolkit ["/etc2"] ["/etc"] 100) "/etc/x"
      = (false, "Path is in blocked directory: /etc") := by
  refine ⟨by decide, by decide, ?_, ?_⟩ <;> decide

/-- C3: any configured blocked pattern occurring as a literal substring of the
command makes `execute` return exit code `-1` with empty stdout and the
denial reason naming a matched pattern in stderr, with no process spawned,
for every run oracle and every allow-list. -/
theorem c3_blocked_pattern_denies (tk : TerminalToolkit)
    (run : String → RunOutcome) (cmd : String)
    (h : ∃ b ∈ tk.blockedCommands, occursIn b cmd = true) :
    ∃ b ∈ tk.blockedCommands, occursIn b cmd = true ∧
      execute tk run cmd = some
        (⟨"", "Command not allowed: " ++ ("Command contains blocked pattern: " ++ b),
          -1, cmd⟩, false) := by
  obtain ⟨b, hb, hocc⟩ := h
  rcases hf : tk.blockedCommands.find? (fun b => occursIn b cmd) with _ | b₀
  · exact absurd hocc (by simpa using List.find?_eq_none.mp hf b hb)
  · refine ⟨b₀, List.mem_of_find?_eq_some hf, by simpa using List.find?_some hf, ?_⟩
    simp [execute, isCommandAllowed, hf]

/-- Run oracle used by concrete terminal witnesses; never consulted on the
denial paths being exercised. -/
def runStub : String → RunOutcome := fun _ => RunOutcome.failed "unused"

/-- A toolkit with the default blocklist and a nonempty allow-list, for the
C3 witness (the blocklist fires before the allow-list is consulted). -/
def tkC3 : TerminalToolkit := ⟨["ls", "rm"], defaultBlockedCommands, 30, none⟩

/-- C3 witness: `rm -rf /` under the default blocklist is denied with `-1`
and no spawn, even though `rm` is on the allow-list. -/
theorem c3_blocked_pattern_denies_witness :
    ∃ b ∈ tkC3.blockedCommands, occursIn b "rm -rf /" = true ∧
      execute tkC3 runStub "rm -rf /" = some
        (⟨"", "Command not allowed: " ++ ("Command contains blocked pattern: " ++ b),
          -1, "rm -rf /"⟩, false) :=
  c3_blocked_pattern_denies tkC3 runStub "rm -rf /"
    ⟨"rm -rf /", by decide, by decide⟩

/-- C4: with no blocked pattern present, an empty allow-list permits any
command (the tokenizer is never consulted, so even a command it would reject
is permitted); a nonempty allow-list tokenizes, denies an empty token list as
an empty command, and otherwise permits exactly when the first token equals
an allowed entry or ends in slash followed by it, naming the unmatched base
command on denial. -/
theorem c4_allowlist_matcher (tk : TerminalToolkit) (cmd : String)
    (hnb : ∀ b ∈ tk.blockedCommands, occursIn b cmd = false) :
    (tk.allowedCommands = [] →
       isCommandAllowed tk cmd = some (true, "No restrictions")) ∧
    (tk.allowedCommands ≠ [] → shlexSplit cmd = some [] →
       isCommandAllowed tk cmd = some (false, "Empty command")) ∧
    (∀ base rest, tk.allowedCommands ≠ [] → shlexSplit cmd = some (base :: rest) →
       (((isCommandAllowed tk cmd).map Prod.fst = some true) ↔
          ∃ a ∈ tk.allowedCommands, base = a ∨ endsWithStr ("/" ++ a) base = true) ∧
       ((∀ a ∈ tk.allowedCommands, ¬(base = a ∨ endsWithStr ("/" ++ a) base = true)) →
          isCommandAllowed tk cmd = some (false, "Command \x27" ++ base
            ++ "\x27 is not in allowed list: " ++ pyStrListRepr tk.allowedCommands))) := by
  have hf : tk.blockedCommands.find? (fun b => occursIn b cmd) = none :=
    List.find?_eq_none.mpr (fun b hb => by simp [hnb b hb])
  refine ⟨fun he => by simp [isCommandAllowed, hf, he], fun hne hsp => ?_, ?_⟩
  · simp [isCommandAllowed, hf, List.isEmpty_iff, hne, hsp]
  · intro base rest hne hsp
    rcases hm : tk.allowedCommands.find?
        (fun a => base == a || endsWithStr ("/" ++ a) base) with _ | a₀
    · constructor
      · simp only [isCommandAllowed, hf, List.isEmpty_iff, if_neg hne, hsp, hm]
        constructor
        · intro hcontra
          simp at hcontra
        · rintro ⟨a, ha, hmatch⟩
          have := List.find?_eq_none.mp hm a ha
          simp only [Bool.or_eq_true, beq_iff_eq, not_or, Bool.not_eq_true] at this
          rcases hmatch with h1 | h1
          · exact absurd h1 (by simpa using this.1)
          · exact absurd h1 (by simp [this.2])
      · intro _
        simp [isCommandAllowed, hf, List.isEmpty_iff, hne, hsp, hm]
    · have hp := List.find?_some hm
      simp only [Bool.or_eq_true, beq_iff_eq] at hp
      constructor
      · simp only [isCommandAllowed, hf, List.isEmpty_iff, if_neg hne, hsp, hm]
        exact ⟨fun _ => ⟨a₀, List.mem_of_find?_eq_some hm, hp⟩, fun _ => by simp⟩
      · intro hnone
        exact absurd hp (hnone a₀ (List.mem_of_find?_eq_some hm))

/-- Toolkit for the C4 witness: allow-list `ls` only, default blocklist. -/
def tkC4 : TerminalToolkit := ⟨["ls"], defaultBlockedCommands, 30, none⟩

/-- C4 witness: `ls -la` contains no blocked pattern, tokenizes with head
`ls`, and is permitted because `ls` is on the allow-list. -/
theorem c4_allowlist_matcher_witness :
    (∀ b ∈ tkC4.blockedCommands, occursIn b "ls -la" = false) ∧
      (isCommandAllowed tkC4 "ls -la").map Prod.fst = some true :=
  ⟨by decide,
   ((c4_allowlist_matcher tkC4 "ls -la" (by decide)).2.2 "ls" ["-la"]
      (by decide) (by decide)).1.mpr ⟨"ls", by decide, Or.inl rfl⟩⟩

/-- C5: once the policy check passes, a timeout expiry yields exit code `-2`
with the configured timeout named in stderr and empty stdout, any other run
failure yields `-3` with the failure detail, and in every case `execute`
returns an actual result rather than letting the fault escape. -/
theorem c5_timeout_and_failure (tk : TerminalToolkit)
    (run : String → RunOutcome) (cmd r : String)
    (hok : isCommandAllowed tk cmd = some (true, r)) :
    (run cmd = RunOutcome.timedOut →
       execute tk run cmd = some
         (⟨"", "Command timed out after " ++ toString tk.timeout ++ " seconds",
           -2, cmd⟩, true)) ∧
    (∀ msg, run cmd = RunOutcome.failed msg →
       execute tk run cmd = some
         (⟨"", "Error executing command: " ++ msg, -3, cmd⟩, true)) ∧
    (execute tk run cmd).isSome = true := by
  refine ⟨fun ht => by simp [execute, hok, ht], fun msg hm => by simp [execute, hok, hm], ?_⟩
  rcases hr : run cmd with ⟨out, err, code⟩ | _ | msg <;> simp [execute, hok, hr]

/-- Toolkit for the C5 witness: no allow-list restriction, 1-second timeout. -/
def tkC5 : TerminalToolkit := ⟨[], defaultBlockedCommands, 1, none⟩

/-- Run oracle for the C5 witness: the child exceeds the timeout. -/
def runTimedOut : String → RunOutcome := fun _ => RunOutcome.timedOut

/-- C5 witness: `sleep 5` under a 1-second timeout returns `-2` and names the
configured timeout. -/
theorem c5_timeout_and_failure_witness :
    execute tkC5 runTimedOut "sleep 5" = some
      (⟨"", "Command timed out after 1 seconds", -2, "sleep 5"⟩, true) :=
  (c5_timeout_and_failure tkC5 runTimedOut "sleep 5" "No restrictions"
    (by decide)).1 rfl

/-- Toolkit with a 1-byte size limit, exhibiting the append overflow. -/
def tkTiny : FilesToolkit := mkFilesToolkit ["/tmp"] [] 1

/-- C6 counterexample: with `maxFileSize = 1`, writing `x` and then appending
`y` both succeed (each write only checks its own content size), but reading
the path back yields the size-exceeded error, not `x ++ y`, so the claim as
stated fails even though every written content is within the limit. -/
theorem c6_roundtrip_counterexample :
    utf8Len "x" ≤ tkTiny.maxFileSize ∧ utf8Len "y" ≤ tkTiny.maxFileSize ∧
    (writeFile tkTiny ⟨[], []⟩ "/tmp/f" "x" false).1
      = "Successfully written to /tmp/f" ∧
    (writeFile tkTiny (writeFile tkTiny ⟨[], []⟩ "/tmp/f" "x" false).2
        "/tmp/f" "y" true).1 = "Successfully appended to /tmp/f" ∧
    readFile tkTiny
        (writeFile tkTiny (writeFile tkTiny ⟨[], []⟩ "/tmp/f" "x" false).2
          "/tmp/f" "y" true).2 "/tmp/f" none
      = "File too large (max 1 bytes)" ∧
    readFile tkTiny
        (writeFile tkTiny (writeFile tkTiny ⟨[], []⟩ "/tmp/f" "x" false).2
          "/tmp/f" "y" true).2 "/tmp/f" none ≠ "x" ++ "y" := by
  decide

/-- The most recent write is what a lookup sees. -/
theorem FS.getFile_setFile (fs : FS) (p c : String) :
    (fs.setFile p c).getFile p = some c := by
  simp [FS.getFile, FS.setFile, List.lookup]

/-- C6 amended: write-then-read round-trips on a permitted non-directory
path, in overwrite mode whenever the written content is within the size
limit, and in append mode additionally whenever the combined content is
still within the size limit (the combined bound is forced by the
counterexample: each write checks only its own argument, while the read
checks the stored file). -/
theorem c6_roundtrip_amended (tk : FilesToolkit) (fs : FS) (p a b : String)
    (hal : (isPathAllowed tk p).1 = true)
    (hdir : fs.dirs.contains p = false)
    (ha : utf8Len a ≤ tk.maxFileSize)
    (hb : utf8Len b ≤ tk.maxFileSize)
    (hab : utf8Len (a ++ b) ≤ tk.maxFileSize) :
    readFile tk (writeFile tk fs p a false).2 p none = a ∧
    readFile tk (writeFile tk (writeFile tk fs p a false).2 p b true).2 p none
      = a ++ b := by
  have hmem : p ∉ fs.dirs := by simpa using hdir
  have hwa : (writeFile tk fs p a false).2 = fs.setFile p a := by
    simp [writeFile, hal, Nat.not_lt.mpr ha, hmem]
  have hmem' : p ∉ (fs.setFile p a).dirs := hmem
  have hwb : (writeFile tk (fs.setFile p a) p b true).2
      = (fs.setFile p a).setFile p (a ++ b) := by
    simp [writeFile, hal, Nat.not_lt.mpr hb, hmem', FS.getFile_setFile]
  constructor
  · rw [hwa]
    simp [readFile, hal, FS.existsP, FS.getFile_setFile, Nat.not_lt.mpr ha]
  · rw [hwa, hwb]
    simp [readFile, hal, FS.existsP, FS.getFile_setFile, Nat.not_lt.mpr hab]

/-- Toolkit for the files witnesses: `/tmp` allowed, nothing blocked. -/
def tkTmp : FilesToolkit := mkFilesToolkit ["/tmp"] [] 100

/-- C6 witness: concrete round trip of `ab` then append `cd` reads `abcd`. -/
theorem c6_roundtrip_amended_witness :
    readFile tkTmp
        (writeFile tkTmp (writeFile tkTmp ⟨[], []⟩ "/tmp/f" "ab" false).2
          "/tmp/f" "cd" true).2 "/tmp/f" none = "ab" ++ "cd" :=
  (c6_roundtrip_amended tkTmp ⟨[], []⟩ "/tmp/f" "ab" "cd"
    (by decide) (by decide) (by decide) (by decide) (by decide)).2

/-- The descriptor whose size field exposes the mutation. -/
def fiC7 : FileInfo := ⟨"/tmp/big", "big", 2048, false, "", 0⟩

/-- C7: the claim fails on the code.  `size_human` divides the `size` FIELD in
place while walking the unit ladder, so on a 2048-byte descriptor the first
evaluation renders `2.0 KB` and leaves `size = 2`, and a second evaluation of
the same descriptor renders `2.0 B`: the two successive evaluations differ
and the field is modified.  (The ladder itself does divide by 1024 through
B, KB, MB, GB with a TB fallback, as the claim describes.) -/
theorem c7_size_human_mutation :
    fiC7.size = 2048 ∧
    (fiC7.sizeHuman).1 = "2.0 KB" ∧
    (fiC7.sizeHuman).2.size = 2 ∧
    ((fiC7.sizeHuman).2.sizeHuman).1 = "2.0 B" ∧
    (fiC7.sizeHuman).1 ≠ ((fiC7.sizeHuman).2.sizeHuman).1 := by
  have h1 : ((2048 : ℚ) < 1024) = False := by norm_num
  have h2 : ((2048 : ℚ) / 1024) = 2 := by norm_num
  have h3 : ((2 : ℚ) < 1024) = True := by norm_num
  have h4 : (⌊(2 : ℚ) * 10⌋ : ℤ) = 20 := by norm_num
  have hgo : sizeHumanGo 2048 ["B", "KB", "MB", "GB"] = ("2.0 KB", 2) := by
    simp only [sizeHumanGo, h1, h2, h3, if_true, if_false, fmt1, h4]
    rfl
  have hgo2 : sizeHumanGo 2 ["B", "KB", "MB", "GB"] = ("2.0 B", 2) := by
    simp only [sizeHumanGo, h3, if_true, fmt1, h4]
    rfl
  refine ⟨rfl, ?_, ?_, ?_, ?_⟩ <;>
    simp [fiC7, FileInfo.sizeHuman, hgo, hgo2]

/-- C10: on a permitted path holding a regular file within the size limit,
`read` with `maxLines = 0` returns the complete content, identical to `read`
with no line limit: zero is falsy, so the full-read branch is taken. -/
theorem c10_zero_max_lines (tk : FilesToolkit) (fs : FS) (p c : String)
    (hal : (isPathAllowed tk p).1 = true)
    (hf : fs.getFile p = some c)
    (hs : utf8Len c ≤ tk.maxFileSize) :
    readFile tk fs p (some 0) = c ∧
    readFile tk fs p (some 0) = readFile tk fs p none := by
  have : readFile tk fs p (some 0) = c := by
    simp [readFile, hal, FS.existsP, hf, Nat.not_lt.mpr hs]
  refine ⟨this, this.trans ?_⟩
  simp [readFile, hal, FS.existsP, hf, Nat.not_lt.mpr hs]

/-- C10 witness: a two-line file read with `maxLines = 0` comes back whole. -/
theorem c10_zero_max_lines_witness :
    readFile tkTmp ⟨[("/tmp/a", "hello\nworld")], []⟩ "/tmp/a" (some 0)
      = "hello\nworld" :=
  (c10_zero_max_lines tkTmp ⟨[("/tmp/a", "hello\nworld")], []⟩ "/tmp/a"
    "hello\nworld" (by decide) (by decide) (by decide)).1

/-- Once every surviving path passes the filters, the traversal loop stops
exactly when the accumulated matches reach 100, appending the marker: the
result is the accumulator, the next `100 - acc.length` found paths, then the
marker. -/
theorem searchLoop_cap (tk : FilesToolkit) (isF keep : String → Bool)
    (hkeep : ∀ p, keep p = true) (found : List String) :
    ∀ acc, (∀ p ∈ found, isF p = true ∧ (isPathAllowed tk p).1 = true) →
      acc.length < 100 → 100 ≤ acc.length + found.length →
      searchLoop tk isF keep acc found
        = acc ++ found.take (100 - acc.length) ++ [searchMarker] := by
  induction found with
  | nil =>
    intro acc _ h1 h2
    simp at h2
    omega
  | cons p rest ih =>
    intro acc hpass h1 h2
    have hp := hpass p (by simp)
    simp only [searchLoop, hp.1, hp.2, Bool.and_self, if_true, hkeep p]
    by_cases hlen : 100 ≤ (acc ++ [p]).length
    · rw [if_pos hlen]
      have hone : 100 - acc.length = 1 := by
        simp only [List.length_append, List.length_cons, List.length_nil] at hlen
        omega
      rw [hone]
      simp
    · rw [if_neg hlen]
      have h1' : (acc ++ [p]).length < 100 := by omega
      have h2' : 100 ≤ (acc ++ [p]).length + rest.length := by
        simp only [List.length_append, List.length_cons, List.length_nil]
        simp only [List.length_cons] at h2
        omega
      rw [ih (acc ++ [p]) (fun q hq => hpass q (by simp [hq])) h1' h2']
      have hsucc : 100 - acc.length = (100 - (acc ++ [p]).length) + 1 := by
        simp only [List.length_append, List.length_cons, List.length_nil] at hlen ⊢
        omega
      rw [hsucc]
      simp [List.take_succ_cons]

/-- C8: when the traversal yields 150 paths that are all regular files and
all pass the containment re-check, and no content query filters, the result
is exactly the first 100 of them followed by the truncation marker, so 100
file entries plus the marker as the final entry. -/
theorem c8_search_truncation (tk : FilesToolkit) (isF : String → Bool)
    (rd : String → Option String) (found : List String)
    (hpass : ∀ p ∈ found, isF p = true ∧ (isPathAllowed tk p).1 = true)
    (hlen : found.length = 150) :
    searchLoop tk isF (contentKeep tk rd none) [] found
      = found.take 100 ++ [searchMarker] ∧
    (found.take 100).length = 100 := by
  have h := searchLoop_cap tk isF (contentKeep tk rd none) (fun p => rfl)
    found [] hpass (by simp) (by simp [hlen])
  simpa [hlen] using h

/-- C8 witness: 150 identical permitted file paths truncate to the first 100
plus the marker. -/
theorem c8_search_truncation_witness :
    searchLoop tkTmp (fun _ => true) (contentKeep tkTmp (fun _ => none) none)
        [] (List.replicate 150 "/tmp/f")
      = (List.replicate 150 "/tmp/f").take 100 ++ [searchMarker] :=
  (c8_search_truncation tkTmp (fun _ => true) (fun _ => none)
    (List.replicate 150 "/tmp/f")
    (fun p hp => by
      rcases List.eq_of_mem_replicate hp
      exact ⟨rfl, by decide⟩)
    (by simp)).1

/-- Every entry the traversal loop adds beyond its starting accumulator is a
path that passed the containment re-check, or the truncation marker. -/
theorem searchLoop_mem (tk : FilesToolkit) (isF keep : String → Bool)
    (found : List String) :
    ∀ acc, (∀ q ∈ acc, (isPathAllowed tk q).1 = true ∨ q = searchMarker) →
      ∀ p ∈ searchLoop tk isF keep acc found,
        (isPathAllowed tk p).1 = true ∨ p = searchMarker := by
  induction found with
  | nil =>
    intro acc hacc p hp
    exact hacc p hp
  | cons q rest ih =>
    intro acc hacc p hp
    simp only [searchLoop] at hp
    by_cases hc : (isF q && (isPathAllowed tk q).1) = true
    · rw [if_pos hc] at hp
      have hc' : isF q = true ∧ (isPathAllowed tk q).1 = true := by simpa using hc
      have hq : (isPathAllowed tk q).1 = true := hc'.2
      have hacc' : ∀ x ∈ (if keep q then acc ++ [q] else acc),
          (isPathAllowed tk x).1 = true ∨ x = searchMarker := by
        intro x hx
        by_cases hk : keep q = true
        · rw [if_pos hk] at hx
          rcases List.mem_append.mp hx with hx | hx
          · exact hacc x hx
          · rcases List.mem_singleton.mp hx
            exact Or.inl hq
        · rw [if_neg hk] at hx
          exact hacc x hx
      by_cases hlen : 100 ≤ (if keep q then acc ++ [q] else acc).length
      · rw [if_pos hlen] at hp
        rcases List.mem_append.mp hp with hp | hp
        · exact hacc' p hp
        · exact Or.inr (List.mem_singleton.mp hp)
      · rw [if_neg hlen] at hp
        exact ih _ hacc' p hp
    · rw [if_neg hc] at hp
      exact ih acc hacc p hp

/-- C9: every entry of a search result other than the truncation marker has
itself passed the path containment check, so a traversed file under a
blocked directory or outside every allowed directory never appears. -/
theorem c9_search_recheck (tk : FilesToolkit) (isF keep : String → Bool)
    (found : List String) (p : String)
    (hp : p ∈ searchLoop tk isF keep [] found) :
    (isPathAllowed tk p).1 = true ∨ p = searchMarker :=
  searchLoop_mem tk isF keep found [] (by simp) p hp

/-- Toolkit for the C9 witness: `/tmp` allowed, `/etc` blocked. -/
def tkC9 : FilesToolkit := mkFilesToolkit ["/tmp"] ["/etc"] 100

-- The traversal drops the blocked discovery and keeps the permitted one.
example : searchLoop tkC9 (fun _ => true) (fun _ => true) []
    ["/etc/passwd", "/tmp/ok"] = ["/tmp/ok"] := by decide

/-- C9 witness: the surviving entry of a traversal that also discovered a
blocked path does pass the containment check. -/
theorem c9_search_recheck_witness :
    (isPathAllowed tkC9 "/tmp/ok").1 = true ∨ "/tmp/ok" = searchMarker :=
  c9_search_recheck tkC9 (fun _ => true) (fun _ => true)
    ["/etc/passwd", "/tmp/ok"] "/tmp/ok" (by decide)
